import Mathlib

/-!
A verification development of the RAGZ hybrid document-retrieval service
(`main.py`).  The Python source is shallowly embedded: pure helpers become
Lean functions over `Nat`, `ℚ`, `String` and `List`; the stateful pieces
(global state loading, document bookkeeping, index initialisation) become
explicit state-passing functions; code that can raise returns `Except`.
Python floats are modelled by `ℚ` (the claims under study are structural,
not about rounding), Python strings by Lean `String`/`List Char`
(comparison of strings in Python is lexicographic on code points, exactly
as on `List Char` here), and external calls (ChromaDB, the cross-encoder,
NLTK tokenisation) are inputs passed explicitly to the functions that make
them.
-/

namespace Ragz

/-- A processed Paperless document as built in
`DataManager.fetch_documents_from_api` (main.py 418-431).  The `tags` and
`last_updated` fields are never consulted by the behaviour under study and
are omitted. -/
structure Doc where
  id : Nat
  title : String
  content : String
  correspondent : String
  created : String
  deriving DecidableEq, Repr

/-! ## SHA-256 (`hashlib.sha256(...).hexdigest()` used in
`DataManager._compute_document_hash`, main.py 281-284)

A faithful implementation of FIPS 180-4 SHA-256 on byte lists, with bytes
and 32-bit words as `Nat` reduced mod `2^32` where the arithmetic can
overflow. -/

/-- Truncation to a 32-bit word. -/
def w32 (n : Nat) : Nat := n % 4294967296

/-- Right rotation of a 32-bit word. -/
def rotr (n x : Nat) : Nat := w32 ((x >>> n) ||| (x <<< (32 - n)))

/-- Bitwise complement of a 32-bit word. -/
def not32 (x : Nat) : Nat := x ^^^ 4294967295

def shaCh (e f g : Nat) : Nat := (e &&& f) ^^^ (not32 e &&& g)

def shaMaj (a b c : Nat) : Nat := (a &&& b) ^^^ (a &&& c) ^^^ (b &&& c)

def bsig0 (x : Nat) : Nat := rotr 2 x ^^^ rotr 13 x ^^^ rotr 22 x

def bsig1 (x : Nat) : Nat := rotr 6 x ^^^ rotr 11 x ^^^ rotr 25 x

def ssig0 (x : Nat) : Nat := rotr 7 x ^^^ rotr 18 x ^^^ (x >>> 3)

def ssig1 (x : Nat) : Nat := rotr 17 x ^^^ rotr 19 x ^^^ (x >>> 10)

/-- The 64 SHA-256 round constants (FIPS 180-4, written in decimal). -/
def shaK : List Nat :=
  [1116352408, 1899447441, 3049323471, 3921009573, 961987163, 1508970993,
   2453635748, 2870763221, 3624381080, 310598401, 607225278, 1426881987,
   1925078388, 2162078206, 2614888103, 3248222580, 3835390401, 4022224774,
   264347078, 604807628, 770255983, 1249150122, 1555081692, 1996064986,
   2554220882, 2821834349, 2952996808, 3210313671, 3336571891, 3584528711,
   113926993, 338241895, 666307205, 773529912, 1294757372, 1396182291,
   1695183700, 1986661051, 2177026350, 2456956037, 2730485921, 2820302411,
   3259730800, 3345764771, 3516065817, 3600352804, 4094571909, 275423344,
   430227734, 506948616, 659060556, 883997877, 958139571, 1322822218,
   1537002063, 1747873779, 1955562222, 2024104815, 2227730452, 2361852424,
   2428436474, 2756734187, 3204031479, 3329325298]

/-- The eight 32-bit working variables / hash words. -/
structure SHAState where
  a : Nat
  b : Nat
  c : Nat
  d : Nat
  e : Nat
  f : Nat
  g : Nat
  h : Nat
  deriving Repr, DecidableEq

/-- Initial SHA-256 hash value (FIPS 180-4, written in decimal). -/
def shaInit : SHAState :=
  ⟨1779033703, 3144134277, 1013904242, 2773480762,
   1359893119, 2600822924, 528734635, 1541459225⟩

/-- Big-endian combination of groups of four bytes into 32-bit words. -/
def bytesToWords : List Nat → List Nat
  | b0 :: b1 :: b2 :: b3 :: rest =>
      (b0 * 16777216 + b1 * 65536 + b2 * 256 + b3) :: bytesToWords rest
  | _ => []

/-- Extend the 16-word message block by `fuel` further schedule words. -/
def extendW : Nat → List Nat → List Nat
  | 0, w => w
  | fuel + 1, w =>
      let t := w.length
      let next := w32 (ssig1 (w.getD (t - 2) 0) + w.getD (t - 7) 0 +
        ssig0 (w.getD (t - 15) 0) + w.getD (t - 16) 0)
      extendW fuel (w ++ [next])

/-- One compression round. -/
def shaRound (s : SHAState) (kw : Nat × Nat) : SHAState :=
  let t1 := w32 (s.h + bsig1 s.e + shaCh s.e s.f s.g + kw.1 + kw.2)
  let t2 := w32 (bsig0 s.a + shaMaj s.a s.b s.c)
  ⟨w32 (t1 + t2), s.a, s.b, s.c, w32 (s.d + t1), s.e, s.f, s.g⟩

/-- Compress one 64-byte block into the running hash value. -/
def compressBlock (H : SHAState) (block : List Nat) : SHAState :=
  let w := extendW 48 (bytesToWords block)
  let s := (shaK.zip w).foldl shaRound H
  ⟨w32 (H.a + s.a), w32 (H.b + s.b), w32 (H.c + s.c), w32 (H.d + s.d),
   w32 (H.e + s.e), w32 (H.f + s.f), w32 (H.g + s.g), w32 (H.h + s.h)⟩

/-- Big-endian encoding of a `Nat` into `n` bytes. -/
def natToBytesBE (n : Nat) (x : Nat) : List Nat :=
  (List.range n).map (fun i => x >>> ((n - 1 - i) * 8) % 256)

/-- SHA-256 message padding: `0x80`, zeros to 56 mod 64, then the bit
length as an 8-byte big-endian integer. -/
def padMessage (msg : List Nat) : List Nat :=
  let z := (119 - msg.length % 64) % 64
  msg ++ [128] ++ List.replicate z 0 ++ natToBytesBE 8 (msg.length * 8)

/-- Split a byte list into 64-byte chunks. -/
def chunks64 (l : List Nat) : List (List Nat) :=
  if h : l = [] then []
  else
    have : (l.drop 64).length < l.length := by
      cases l with
      | nil => exact absurd rfl h
      | cons x xs => simp [List.length_drop]; omega
    l.take 64 :: chunks64 (l.drop 64)
termination_by l.length

/-- The four big-endian bytes of a 32-bit word. -/
def wordBytes (x : Nat) : List Nat :=
  [x >>> 24 % 256, x >>> 16 % 256, x >>> 8 % 256, x % 256]

/-- The 32 digest bytes of a final hash state. -/
def digestBytes (H : SHAState) : List Nat :=
  wordBytes H.a ++ wordBytes H.b ++ wordBytes H.c ++ wordBytes H.d ++
  wordBytes H.e ++ wordBytes H.f ++ wordBytes H.g ++ wordBytes H.h

/-- SHA-256 of a byte list. -/
def sha256 (msg : List Nat) : List Nat :=
  digestBytes ((chunks64 (padMessage msg)).foldl compressBlock shaInit)

/-- Lower-case hex digit: `0-9` then `a-f` (code points 48-57, 97-102). -/
def hexChar (n : Nat) : Char :=
  if n < 10 then Char.ofNat (48 + n) else Char.ofNat (87 + n)

/-- `hexdigest()`: the digest bytes as a lower-case hex string. -/
def hexDigest (bytes : List Nat) : String :=
  String.mk (bytes.flatMap (fun b => [hexChar (b / 16), hexChar (b % 16)]))

/-- UTF-8 encoding of one code point (Python `str.encode()`). -/
def utf8Char (c : Char) : List Nat :=
  let n := c.toNat
  if n < 128 then [n]
  else if n < 2048 then [192 + n / 64, 128 + n % 64]
  else if n < 65536 then [224 + n / 4096, 128 + n / 64 % 64, 128 + n % 64]
  else [240 + n / 262144, 128 + n / 4096 % 64, 128 + n / 64 % 64, 128 + n % 64]

/-- UTF-8 encoding of a string (Python `str.encode()`). -/
def strEncode (s : String) : List Nat := s.data.flatMap utf8Char

/-- The string hashed by `_compute_document_hash` (main.py 283):
`f"{doc['title']}{doc['content']}{doc['correspondent']}"`. -/
def hash_input (doc : Doc) : String := doc.title ++ doc.content ++ doc.correspondent

/-- `DataManager._compute_document_hash` (main.py 281-284). -/
def compute_document_hash (doc : Doc) : String :=
  hexDigest (sha256 (strEncode (hash_input doc)))

/-! ## Global state persistence (`GlobalState`, main.py 114-203) -/

/-- In-memory `IndexingStatus` (main.py 74-79). -/
structure IndexingStatusM where
  running : Bool
  last_indexed : Option String
  documents_count : Nat
  up_to_date : Bool
  message : String
  deriving DecidableEq, Repr

/-- In-memory `SystemStatus` flags persisted by `save_state`
(main.py 81-87; `server_up` and the nested indexing status are not read
back by `load_state` and are omitted). -/
structure SystemStatusM where
  data_loaded : Bool
  index_ready : Bool
  chroma_ready : Bool
  bm25_ready : Bool
  deriving DecidableEq, Repr

/-- The fields of `GlobalState` that `load_state` touches. -/
structure GlobalStateM where
  indexing_status : IndexingStatusM
  system_status : SystemStatusM
  indexed_document_ids : List Nat
  deriving DecidableEq, Repr

/-- The state of a freshly constructed `GlobalState` (main.py 115-122):
pydantic defaults, so `running = False`. -/
def init_global_state : GlobalStateM :=
  ⟨⟨false, none, 0, false, ""⟩, ⟨false, false, false, false⟩, []⟩

/-- The persisted `indexing_status` JSON object: every field is optional
because `load_state` reads each one with `.get`. -/
structure IdxStatusFile where
  running : Option Bool
  last_indexed : Option String
  documents_count : Option Nat
  up_to_date : Option Bool
  message : Option String
  deriving DecidableEq, Repr

/-- The persisted `system_status` JSON object. -/
structure SysStatusFile where
  data_loaded : Option Bool
  index_ready : Option Bool
  chroma_ready : Option Bool
  bm25_ready : Option Bool
  deriving DecidableEq, Repr

/-- A parsed `system_state.json` (main.py 131-147 writes it; every key is
optional on read because `load_state` uses `.get` everywhere). -/
structure StateFile where
  schema_version : Option Int
  indexing_status : Option IdxStatusFile
  system_status : Option SysStatusFile
  indexed_document_ids : Option (List Nat)
  deriving DecidableEq, Repr

/-- `GlobalState.load_state` (main.py 158-201).  The disk is modelled as
`none` (no state file), `some none` (file present but `json.load` raised)
or `some (some f)` (parsed contents `f`).  Returns the Python return value
and the updated state.  A `schema_version` different from the current one
(`1`) is only logged (main.py 166-169); loading continues best-effort. -/
def load_state (g : GlobalStateM) (disk : Option (Option StateFile)) :
    Bool × GlobalStateM :=
  match disk with
  | none => (false, g)
  | some none => (false, g)
  | some (some f) =>
      let g1 :=
        match f.indexing_status with
        | none => g
        | some idx =>
            { g with indexing_status :=
                { last_indexed := idx.last_indexed
                  documents_count := idx.documents_count.getD 0
                  up_to_date := idx.up_to_date.getD false
                  message := idx.message.getD ""
                  -- main.py 179: "Always set running to False on startup";
                  -- the persisted `running` value is never read.
                  running := false } }
      let g2 :=
        match f.system_status with
        | none => g1
        | some s =>
            { g1 with system_status :=
                { data_loaded := s.data_loaded.getD false
                  index_ready := s.index_ready.getD false
                  chroma_ready := s.chroma_ready.getD false
                  bm25_ready := s.bm25_ready.getD false } }
      (true, { g2 with indexed_document_ids := f.indexed_document_ids.getD [] })

/-! ## Indexing start (`start_indexing`, main.py 1819-1836)

`main.py` contains no on-disk lock token: the only mutual-exclusion state
the endpoint consults is `global_state.indexing_status.running`.  To be
able to speak about lock files at all we thread an (age-in-minutes of a
lock token, if one exists) component of the filesystem through the
operation; since no line of `start_indexing` (or of anything it calls)
reads, writes or removes such a token, the model returns it unchanged. -/

/-- `IndexingRequest` (main.py 96-98). -/
structure IndexingRequestM where
  force : Bool
  background : Bool
  deriving DecidableEq, Repr

inductive StartResponse
  | alreadyRunning   -- {"status": "running", ...} (main.py 1822-1823)
  | started          -- background task queued (main.py 1830-1832)
  | completed        -- foreground run_indexing finished (main.py 1834-1836)
  deriving DecidableEq, Repr

/-- `start_indexing` (main.py 1819-1836), decision structure.  `running`
is the in-process flag; `diskLockAge` is the filesystem lock-token
component described above. -/
def start_indexing (req : IndexingRequestM) (running : Bool)
    (diskLockAge : Option Nat) : StartResponse × Option Nat :=
  if running then (.alreadyRunning, diskLockAge)
  else if req.background then (.started, diskLockAge)
  else (.completed, diskLockAge)

/-! ## Document bookkeeping (`DataManager`, main.py 435-531, 1583-1584) -/

/-- Python `set.add` on a list-modelled set: no duplicates, insertion
order kept (order is irrelevant to the properties proved here). -/
def insertId (l : List Nat) (x : Nat) : List Nat :=
  if x ∈ l then l else l ++ [x]

/-- The parts of `DataManager` / `SearchEngine` state that document
bookkeeping touches: the canonical snapshot, the two id sets, the BM25
tokenized corpus (positional) and the ids present in the ChromaDB
collection. -/
structure DMState where
  documents : List Doc
  indexed_document_ids : List Nat
  new_document_ids : List Nat
  tokenized_corpus : List (List String)
  chroma_ids : List Nat
  deriving DecidableEq, Repr

/-- `DataManager._check_for_new_documents` (main.py 435-458): clears
`new_document_ids`, then for every fetched document whose id is not in
`indexed_document_ids` appends it to the returned list and adds its id to
both sets.  No index (`tokenized_corpus`, `chroma_ids`) is touched. -/
def check_for_new_documents (st : DMState) (api_documents : List Doc) :
    List Doc × DMState :=
  api_documents.foldl
    (fun acc doc =>
      if doc.id ∈ acc.2.indexed_document_ids then acc
      else (acc.1 ++ [doc],
        { acc.2 with
          new_document_ids := insertId acc.2.new_document_ids doc.id
          indexed_document_ids := insertId acc.2.indexed_document_ids doc.id }))
    ([], { st with new_document_ids := [] })

/-- The `check_new` branch of `DataManager.load_documents`
(main.py 482-489): run the check and append genuinely new documents to the
snapshot. -/
def load_documents_check_new (st : DMState) (api_documents : List Doc) : DMState :=
  let r := check_for_new_documents st api_documents
  if r.1.isEmpty then r.2 else { r.2 with documents := r.2.documents ++ r.1 }

/-- Does the lexical (BM25) corpus hold an entry for `docId`?  The corpus
is positional (1:1 with `documents`, main.py 855-863), so an entry exists
when the document sits at some position covered by the corpus. -/
def bm25_has_entry (st : DMState) (docId : Nat) : Bool :=
  st.documents.enum.any (fun p => p.2.id = docId && p.1 < st.tokenized_corpus.length)

/-! ## BM25 index build / load (`SearchEngine`, main.py 760-982) -/

/-- Python `str.lower()` (ASCII case folding suffices for the model). -/
def pyLower (s : String) : String := String.mk (s.data.map Char.toLower)

/-- Tokenisation of one document for BM25 (main.py 855-863 and 956-959):
`word_tokenize((title + " " + correspondent + " " + content).lower())`
with stop-word filtering.  `tok` is the external NLTK `word_tokenize`. -/
def tokenize_document (tok : String → List String) (stop_words : List String)
    (d : Doc) : List String :=
  (tok (pyLower (d.title ++ " " ++ d.correspondent ++ " " ++ d.content))).filter
    (fun t => t ∉ stop_words)

/-- `SearchEngine._setup_bm25` (main.py 832-874): fails (returns `none`)
on an empty document list, otherwise tokenizes every document in order. -/
def setup_bm25 (tok : String → List String) (stop_words : List String)
    (documents : List Doc) : Option (List (List String)) :=
  if documents.isEmpty then none
  else some (documents.map (tokenize_document tok stop_words))

/-- The unpickled contents of `bm25_index.pkl` (main.py 883-887):
whether the `'bm25'` entry is usable, and the stored tokenized corpus. -/
structure BM25FileData where
  bm25_present : Bool
  tokenized_corpus : List (List String)
  deriving DecidableEq, Repr

/-- `SearchEngine._load_bm25` (main.py 894-926).  Returns the Python
return value together with the `tokenized_corpus` now held in memory
(`none` when unpickling raised before the assignment).  NOTE main.py
912-914: a corpus/documents size mismatch only logs a warning — the
loader still returns `True`. -/
def load_bm25 (documents : List Doc) (file : Except Unit BM25FileData) :
    Bool × Option (List (List String)) :=
  match file with
  | .error _ => (false, none)
  | .ok data =>
      if !data.bm25_present || data.tokenized_corpus.isEmpty then
        (false, some data.tokenized_corpus)
      else
        (true, some data.tokenized_corpus)

/-- `SearchEngine._add_new_documents_to_bm25` (main.py 928-982): with no
existing corpus it rebuilds from scratch; otherwise it appends the
tokenisation of each new id found in the snapshot (`documents_by_id` is a
Python dict comprehension, so a duplicated id resolves to the last
occurrence; `new_ids` is the iteration order of the Python set). -/
def add_new_documents_to_bm25 (tok : String → List String)
    (stop_words : List String) (documents : List Doc) (new_ids : List Nat)
    (corpus : List (List String)) : Option (List (List String)) :=
  if corpus.isEmpty then setup_bm25 tok stop_words documents
  else some (corpus ++ new_ids.filterMap (fun i =>
    (documents.reverse.find? (fun d => d.id = i)).map
      (tokenize_document tok stop_words)))

/-- The BM25 section of `SearchEngine.initialize` (main.py 783-808):
try to load the persisted index unless a forced update; if the loaded
corpus size does not match the document count, discard it and rebuild
from scratch (main.py 791-795); if the load reported failure, rebuild
from scratch (main.py 806-808).  Returns the final tokenized corpus. -/
def init_bm25_corpus (tok : String → List String) (stop_words : List String)
    (documents : List Doc) (file_exists force_update : Bool)
    (file : Except Unit BM25FileData) (have_new_docs : Bool)
    (new_ids : List Nat) : Option (List (List String)) :=
  let loaded :=
    if file_exists && !force_update then
      let r := load_bm25 documents file
      if r.1 && !(r.2.getD []).isEmpty &&
          (r.2.getD []).length ≠ documents.length then
        (false, setup_bm25 tok stop_words documents)
      else if r.1 && have_new_docs then
        (true, add_new_documents_to_bm25 tok stop_words documents new_ids
          (r.2.getD []))
      else r
    else (false, none)
  if !loaded.1 then setup_bm25 tok stop_words documents
  else loaded.2

/-! ## Search engine (`SearchEngine`, main.py 984-1360)

Scores are modelled by `ℚ`.  The external calls are inputs:
`bm25Scores` stands for `self.bm25.get_scores(query_tokens)` (or its
failure), `chroma k` for the ChromaDB query with `n_results = k`
(returning id/distance pairs or a failure), `predictOut` for the
cross-encoder `predict` call, and `sig` for the numeric sigmoid
`1/(1+exp(-x))` (main.py 1207), kept abstract because `exp` has no exact
rational form. -/

/-- Constants (main.py 64-66). -/
def BM25_WEIGHT : ℚ := 3/10

def SEMANTIC_WEIGHT : ℚ := 7/10

def MAX_RESULTS : Nat := 20

/-- One entry of the result dicts flowing through
`keyword_search` / `semantic_search` / `hybrid_search` / `rerank_results`
(keys `id`, `title`, `correspondent`, `date`, `score`, `content`, plus
`cross_score` once reranking has run). -/
structure SResult where
  id : Nat
  title : String
  correspondent : String
  date : String
  score : ℚ
  content : String
  cross_score : Option ℚ
  deriving DecidableEq, Repr

/-- `SearchRequest` (main.py 90-94). -/
structure SearchRequestM where
  from_date : Option String
  to_date : Option String
  correspondent : Option String
  deriving DecidableEq, Repr

/-- The result dict built from a document (main.py 1020-1027 and
1069-1076). -/
def mkResult (d : Doc) (score : ℚ) : SResult :=
  ⟨d.id, d.title, d.correspondent, d.created, score, d.content, none⟩

/-- `SearchEngine.keyword_search` (main.py 984-1034).  The guard clauses
(engine/BM25 not initialised, corpus size mismatch) and a failing
`get_scores` call all raise; they are modelled by the `.error` side of
`bm25Scores`.  An explicit raise remains for the score-count check
(main.py 1006-1008).  Scores are paired with document positions, sorted
descending by score (Python `list.sort` is stable, as is `mergeSort`),
truncated to `top_k`, and only strictly positive scores are kept
(main.py 1016-1017). -/
def keyword_search (documents : List Doc) (bm25Scores : Except Unit (List ℚ))
    (top_k : Nat) : Except String (List SResult) :=
  match bm25Scores with
  | .error _ => .error "BM25 scoring failed"
  | .ok scores =>
      if scores.length ≠ documents.length then
        .error "BM25 returned invalid scores"
      else
        let doc_scores := scores.enum.mergeSort (fun a b => decide (b.2 ≤ a.2))
        .ok ((doc_scores.take top_k).filterMap (fun p =>
          if p.2 > 0 then (documents.get? p.1).map (fun d => mkResult d p.2)
          else none))

/-- `SearchEngine.semantic_search` (main.py 1036-1086).  `chroma` is the
external collection query keyed by `n_results`; the call is made with
`n_results = min(top_k, 100)` (main.py 1047-1050).  Each returned id is
resolved back to a document (main.py 1065) and unresolved ids are
skipped; any exception yields `[]` (main.py 1083-1086). -/
def semantic_search (documents : List Doc)
    (chroma : Nat → Except Unit (List (Nat × ℚ))) (top_k : Nat) :
    List SResult :=
  match chroma (min top_k 100) with
  | .error _ => []
  | .ok idsDists =>
      idsDists.filterMap (fun p =>
        (documents.find? (fun d => d.id = p.1)).map (fun d => mkResult d p.2))

/-- Keyword score normalisation (main.py 1137-1140): divide by the
maximum candidate score (`max(..., default=1.0)`), or zero everything
when the maximum is not positive. -/
def normalize_keyword (keyword_results : List SResult) : List SResult :=
  match keyword_results.map (fun r => r.score) with
  | [] => keyword_results
  | x :: xs =>
      let max_keyword_score := xs.foldl max x
      keyword_results.map (fun r =>
        { r with score := if max_keyword_score > 0
            then r.score / max_keyword_score else 0 })

/-- Semantic distance-to-similarity conversion (main.py 1142-1146):
`1 - distance` when `distance <= 1`, else `0`. -/
def normalize_semantic (semantic_results : List SResult) : List SResult :=
  semantic_results.map (fun r =>
    { r with score := if r.score ≤ 1 then 1 - r.score else 0 })

/-- Python-dict update-or-append on an insertion-ordered association
list: if the key is present the stored value is replaced by
`f (some old)` in place, otherwise `(k, f none)` is appended.  (The map
branch rewrites every entry with the key; keys are unique throughout, so
this coincides with the Python dict.) -/
def dictUpsert (m : List (Nat × SResult)) (k : Nat)
    (f : Option SResult → SResult) : List (Nat × SResult) :=
  if m.any (fun p => p.1 = k) then
    m.map (fun p => if p.1 = k then (p.1, f (some p.2)) else p)
  else m ++ [(k, f none)]

/-- The keyword loop of the fusion (main.py 1148-1154):
`results_map[doc_id] = {**result, "score": score * BM25_WEIGHT}`. -/
def add_keyword_results (m : List (Nat × SResult)) (keyword_results : List SResult) :
    List (Nat × SResult) :=
  keyword_results.foldl
    (fun m r => dictUpsert m r.id
      (fun _ => { r with score := r.score * BM25_WEIGHT })) m

/-- The semantic loop of the fusion (main.py 1156-1165): add
`score * SEMANTIC_WEIGHT` to an existing entry, otherwise insert the
weighted result. -/
def add_semantic_results (m : List (Nat × SResult)) (semantic_results : List SResult) :
    List (Nat × SResult) :=
  semantic_results.foldl
    (fun m r => dictUpsert m r.id
      (fun old =>
        match old with
        | some v => { v with score := v.score + r.score * SEMANTIC_WEIGHT }
        | none => { r with score := r.score * SEMANTIC_WEIGHT })) m

/-- The `results_map` built by `hybrid_search` from the two
already-normalised candidate lists (main.py 1133-1165). -/
def combine_results (keyword_results semantic_results : List SResult) :
    List (Nat × SResult) :=
  add_semantic_results (add_keyword_results [] keyword_results) semantic_results

/-- Fused score of a document id in the `results_map`. -/
def lookupScore (m : List (Nat × SResult)) (i : Nat) : Option ℚ :=
  (m.find? (fun p => p.1 = i)).map (fun p => p.2.score)

/-- The keyword candidates as `hybrid_search` sees them (main.py
1116-1120): a raising `keyword_search` is caught and replaced by `[]`. -/
def keyword_results_caught (documents : List Doc)
    (bm25Scores : Except Unit (List ℚ)) (top_k : Nat) : List SResult :=
  match keyword_search documents bm25Scores top_k with
  | .ok rs => rs
  | .error _ => []

/-- `SearchEngine.hybrid_search` (main.py 1088-1172).  `bm25Ok` and
`collectionOk` are the availability of the two subsystems after the
in-function repair attempts (main.py 1099-1113); with BM25 unusable the
code falls back to semantic-only, with ChromaDB unusable to keyword-only.
On the main path each method is queried for `top_k*2` candidates, a
raising keyword search is caught and replaced by `[]` (main.py 1116-1120;
`semantic_search` already returns `[]` on failure), and if both lists are
empty an exception is raised (main.py 1129-1131).  Otherwise scores are
normalised, fused per document id, sorted descending and truncated
(main.py 1133-1172). -/
def hybrid_search (documents : List Doc) (bm25Ok collectionOk : Bool)
    (bm25Scores : Except Unit (List ℚ))
    (chroma : Nat → Except Unit (List (Nat × ℚ))) (top_k : Nat) :
    Except String (List SResult) :=
  if bm25Ok = false then
    .ok (semantic_search documents chroma top_k)
  else if collectionOk = false then
    keyword_search documents bm25Scores top_k
  else
    let keyword_results := keyword_results_caught documents bm25Scores (top_k * 2)
    let semantic_results := semantic_search documents chroma (top_k * 2)
    if keyword_results.isEmpty && semantic_results.isEmpty then
      .error "All search methods failed"
    else
      let combined :=
        (combine_results (normalize_keyword keyword_results)
          (normalize_semantic semantic_results)).map (fun p => p.2)
      .ok ((combined.mergeSort
        (fun a b => decide (b.score ≤ a.score))).take top_k)

/-- `SearchEngine.rerank_results` (main.py 1174-1229).  `predictOut` is
the cross-encoder call on the (query, passage) pairs — one pair per
result, so the pair list is never empty here — and `sig` the sigmoid
transform (main.py 1204-1207).  A raising call gives every result the
neutral `cross_score = 0.5` and returns the list truncated
(main.py 1221-1229); a score count different from the result count does
the same but without truncation (main.py 1195-1199); otherwise scores are
assigned positionally, the list is sorted by `cross_score` descending
(stable) and truncated (main.py 1202-1219). -/
def rerank_results (sig : ℚ → ℚ) (results : List SResult)
    (predictOut : Except Unit (List ℚ)) (top_k : Nat) : List SResult :=
  if results.isEmpty then []
  else
    match predictOut with
    | .error _ =>
        (results.map (fun r => { r with cross_score := some (1/2) })).take top_k
    | .ok cross_scores =>
        if cross_scores.length ≠ results.length then
          results.map (fun r => { r with cross_score := some (1/2) })
        else
          let scored := results.zipWith
            (fun r sc => { r with cross_score := some (sig sc) }) cross_scores
          (scored.mergeSort (fun a b =>
            decide (b.cross_score.getD 0 ≤ a.cross_score.getD 0))).take top_k

/-- Python truthiness of an optional string field (absent or empty is
falsy). -/
def truthy : Option String → Bool
  | none => false
  | some s => !s.isEmpty

/-- `result["date"].split("T")[0]` (main.py 1304, 1312): the prefix of
the date string before the first `'T'`. -/
def datePart (s : String) : String := String.mk (s.data.takeWhile (fun c => c ≠ 'T'))

/-- Python lexicographic string comparison on code points. -/
def pyStrLt : List Char → List Char → Bool
  | [], [] => false
  | [], _ :: _ => true
  | _ :: _, [] => false
  | a :: as, b :: bs => a.toNat < b.toNat || (a = b && pyStrLt as bs)

def strLt (a b : String) : Bool := pyStrLt a.data b.data

/-- Is `needle` a prefix of `hay`? -/
def charsStart : List Char → List Char → Bool
  | [], _ => true
  | _ :: _, [] => false
  | n :: ns, c :: cs => n = c && charsStart ns cs

/-- Python `needle in hay` on strings: `needle` occurs contiguously in
`hay`. -/
def charsSub (needle : List Char) : List Char → Bool
  | [] => charsStart needle []
  | c :: cs => charsStart needle (c :: cs) || charsSub needle cs

/-- Case-insensitive substring test
(`request.correspondent.lower() in result["correspondent"].lower()`,
main.py 1320). -/
def strContainsCI (haystack needle : String) : Bool :=
  charsSub (needle.data.map Char.toLower) (haystack.data.map Char.toLower)

/-- The per-result filter decision of `SearchEngine.search`
(main.py 1298-1321): each bound is enforced only when both the bound and
the corresponding result field are truthy (non-empty); date bounds are
inclusive and compared on the date portion only; the correspondent filter
is a case-insensitive substring test. -/
def includeResult (req : SearchRequestM) (r : SResult) : Bool :=
  (if truthy req.from_date && !r.date.isEmpty then
     !strLt (datePart r.date) (req.from_date.getD "") else true) &&
  (if truthy req.to_date && !r.date.isEmpty then
     !strLt (req.to_date.getD "") (datePart r.date) else true) &&
  (if truthy req.correspondent && !r.correspondent.isEmpty then
     strContainsCI r.correspondent (req.correspondent.getD "") else true)

/-- The filter stage of `SearchEngine.search` (main.py 1296-1326): only
run when some filter is requested; kept results are passed through
untouched. -/
def applyFilters (req : SearchRequestM) (results : List SResult) : List SResult :=
  if truthy req.from_date || truthy req.to_date || truthy req.correspondent then
    results.filter (includeResult req)
  else results

/-- The keep-condition as the specification words it ("kept only if its
date (date portion only) is >= fromDate and <= toDate when those bounds
are given, and only if the given correspondent string is a
case-insensitive substring of the result's correspondent") — written to
be compared against the implemented `includeResult`. -/
def specKeep (req : SearchRequestM) (r : SResult) : Bool :=
  (match req.from_date with
   | none => true
   | some fd => !strLt (datePart r.date) fd) &&
  (match req.to_date with
   | none => true
   | some td => !strLt td (datePart r.date)) &&
  (match req.correspondent with
   | none => true
   | some c => strContainsCI r.correspondent c)

/-- `SearchEngine.search` (main.py 1274-1360) up to the shape of the
result list: hybrid search with the default `top_k = MAX_RESULTS`, empty
short-circuits, post-fusion filtering, then reranking.  The final
`SearchResult` marshaling (main.py 1337-1350) maps results one-to-one
(dropping an item only if its construction raises) and adds snippets; it
never adds items and is outside the modelled core. -/
def search (documents : List Doc) (bm25Ok collectionOk : Bool)
    (bm25Scores : Except Unit (List ℚ))
    (chroma : Nat → Except Unit (List (Nat × ℚ))) (req : SearchRequestM)
    (sig : ℚ → ℚ) (predictOut : Except Unit (List ℚ)) :
    Except String (List SResult) :=
  match hybrid_search documents bm25Ok collectionOk bm25Scores chroma MAX_RESULTS with
  | .error e => .error e
  | .ok results =>
      if results.isEmpty then .ok []
      else
        let filtered := applyFilters req results
        if filtered.isEmpty then .ok []
        else .ok (rerank_results sig filtered predictOut MAX_RESULTS)

/-! ## Helper lemmas -/

lemma insertId_mem (l : List Nat) (x i : Nat) :
    i ∈ insertId l x ↔ i ∈ l ∨ i = x := by
  unfold insertId
  by_cases hx : x ∈ l
  · simp only [if_pos hx]
    constructor
    · exact Or.inl
    · rintro (h | rfl)
      · exact h
      · exact hx
  · simp [if_neg hx]

/-- The fold inside `check_for_new_documents`: effect on the id set and
on the untouched components, for an arbitrary accumulator. -/
lemma check_fold_spec (api : List Doc) (acc : List Doc × DMState) :
    (∀ i, i ∈ (api.foldl
        (fun acc doc =>
          if doc.id ∈ acc.2.indexed_document_ids then acc
          else (acc.1 ++ [doc],
            { acc.2 with
              new_document_ids := insertId acc.2.new_document_ids doc.id
              indexed_document_ids := insertId acc.2.indexed_document_ids doc.id }))
        acc).2.indexed_document_ids ↔
        i ∈ acc.2.indexed_document_ids ∨ ∃ d ∈ api, d.id = i) ∧
    (api.foldl
        (fun acc doc =>
          if doc.id ∈ acc.2.indexed_document_ids then acc
          else (acc.1 ++ [doc],
            { acc.2 with
              new_document_ids := insertId acc.2.new_document_ids doc.id
              indexed_document_ids := insertId acc.2.indexed_document_ids doc.id }))
        acc).2.tokenized_corpus = acc.2.tokenized_corpus ∧
    (api.foldl
        (fun acc doc =>
          if doc.id ∈ acc.2.indexed_document_ids then acc
          else (acc.1 ++ [doc],
            { acc.2 with
              new_document_ids := insertId acc.2.new_document_ids doc.id
              indexed_document_ids := insertId acc.2.indexed_document_ids doc.id }))
        acc).2.chroma_ids = acc.2.chroma_ids ∧
    (api.foldl
        (fun acc doc =>
          if doc.id ∈ acc.2.indexed_document_ids then acc
          else (acc.1 ++ [doc],
            { acc.2 with
              new_document_ids := insertId acc.2.new_document_ids doc.id
              indexed_document_ids := insertId acc.2.indexed_document_ids doc.id }))
        acc).2.documents = acc.2.documents := by
  induction api generalizing acc with
  | nil => simp
  | cons d rest ih =>
    simp only [List.foldl_cons]
    by_cases hd : d.id ∈ acc.2.indexed_document_ids
    · simp only [if_pos hd]
      obtain ⟨ih1, ih2, ih3, ih4⟩ := ih acc
      refine ⟨fun i => ?_, ih2, ih3, ih4⟩
      rw [ih1 i]
      constructor
      · rintro (h | h)
        · exact Or.inl h
        · exact Or.inr (by simpa using Or.inr h)
      · rintro (h | h)
        · exact Or.inl h
        · rcases (by simpa using h : d.id = i ∨ ∃ x ∈ rest, x.id = i) with h' | h'
          · exact Or.inl (h' ▸ hd)
          · exact Or.inr h'
    · simp only [if_neg hd]
      obtain ⟨ih1, ih2, ih3, ih4⟩ := ih
        (acc.1 ++ [d],
          { acc.2 with
            new_document_ids := insertId acc.2.new_document_ids d.id
            indexed_document_ids := insertId acc.2.indexed_document_ids d.id })
      refine ⟨fun i => ?_, ih2, ih3, ih4⟩
      rw [ih1 i]
      simp only [insertId_mem, List.mem_cons]
      constructor
      · rintro ((h | rfl) | h)
        · exact Or.inl h
        · exact Or.inr ⟨d, by simp⟩
        · obtain ⟨x, hx, hxi⟩ := h
          exact Or.inr ⟨x, by simp [hx], hxi⟩
      · rintro (h | ⟨x, hx, hxi⟩)
        · exact Or.inl (Or.inl h)
        · rcases (by simpa using hx : x = d ∨ x ∈ rest) with rfl | h'
          · exact Or.inl (Or.inr hxi.symm)
          · exact Or.inr ⟨x, h', hxi⟩

/-! ## Claim theorems -/

/-- C3 (counterexample): the membership invariant "an id is in
`indexed_document_ids` iff both the lexical corpus and the vector index
hold its entry" is violated in a reachable state.  Starting from the
empty initial state, one `load_documents(check_new=True)` round that
discovers document 1 puts `1` into `indexed_document_ids` while neither
the BM25 corpus nor the ChromaDB collection holds any entry for it. -/
theorem indexed_ids_added_before_indexes :
    1 ∈ (load_documents_check_new ⟨[], [], [], [], []⟩
        [⟨1, "a", "b", "c", "d"⟩]).indexed_document_ids ∧
    bm25_has_entry (load_documents_check_new ⟨[], [], [], [], []⟩
        [⟨1, "a", "b", "c", "d"⟩]) 1 = false ∧
    1 ∉ (load_documents_check_new ⟨[], [], [], [], []⟩
        [⟨1, "a", "b", "c", "d"⟩]).chroma_ids := by
  decide

/-- C3 (amended): `_check_for_new_documents` adds every newly fetched
document id to `indexed_document_ids` at discovery time and leaves the
lexical corpus and the vector index untouched, so the set tracks known
(fetched) documents rather than index membership; the claimed
"member iff both indexes hold an entry" invariant does not hold across
operations. -/
theorem check_for_new_documents_spec (st : DMState) (api : List Doc) :
    (∀ i, i ∈ (check_for_new_documents st api).2.indexed_document_ids ↔
        i ∈ st.indexed_document_ids ∨ ∃ d ∈ api, d.id = i) ∧
    (check_for_new_documents st api).2.tokenized_corpus = st.tokenized_corpus ∧
    (check_for_new_documents st api).2.chroma_ids = st.chroma_ids ∧
    (check_for_new_documents st api).2.documents = st.documents := by
  unfold check_for_new_documents
  exact check_fold_spec api ([], { st with new_document_ids := [] })

/-- C6 (counterexample): with no indexing cycle running and an on-disk
lock token 15 minutes old (older than the claimed 10-minute staleness
threshold), `start_indexing` proceeds but does **not** remove the token —
the filesystem component comes back unchanged, because `main.py` never
touches any lock file. -/
theorem start_indexing_ignores_stale_lock :
    (start_indexing ⟨false, true⟩ false (some 15)).2 = some 15 ∧
    (start_indexing ⟨false, true⟩ false (some 15)).1 ≠ StartResponse.alreadyRunning := by
  decide

/-- C6 (amended): `start_indexing` enforces mutual exclusion solely
through the in-process `indexing_status.running` flag: a call while the
flag is set is answered "already running", a call while it is clear
always proceeds (background or foreground), and the on-disk state is
never consulted, aged or removed — there is no lock token in the code. -/
theorem start_indexing_flag_only_exclusion (req : IndexingRequestM)
    (running : Bool) (diskLockAge : Option Nat) :
    (start_indexing req running diskLockAge).2 = diskLockAge ∧
    (running = true → (start_indexing req running diskLockAge).1 =
      StartResponse.alreadyRunning) ∧
    (running = false → (start_indexing req running diskLockAge).1 ≠
      StartResponse.alreadyRunning) := by
  unfold start_indexing
  cases running <;> cases req with
  | mk force background => cases background <;> simp

/-- C6 (witness for the amended theorem). -/
theorem start_indexing_flag_only_exclusion_witness :
    (start_indexing ⟨true, false⟩ false (some 600)).2 = some 600 ∧
    (start_indexing ⟨true, false⟩ false (some 600)).1 ≠
      StartResponse.alreadyRunning :=
  ⟨(start_indexing_flag_only_exclusion ⟨true, false⟩ false (some 600)).1,
   (start_indexing_flag_only_exclusion ⟨true, false⟩ false (some 600)).2.2 rfl⟩

/-- C7: loading any parseable state file succeeds best-effort (returns
`True` whatever `schema_version` it carries — a mismatch with the current
version 1 is only logged), the in-memory `running` flag is `false` after
the load regardless of what the file stored, and the recoverable
`documents_count` field is still taken from the file. -/
theorem load_state_best_effort (f : StateFile) :
    (load_state init_global_state (some (some f))).1 = true ∧
    (load_state init_global_state (some (some f))).2.indexing_status.running
      = false ∧
    (∀ idx, f.indexing_status = some idx →
      (load_state init_global_state
        (some (some f))).2.indexing_status.documents_count
        = idx.documents_count.getD 0) := by
  unfold load_state
  refine ⟨rfl, ?_, ?_⟩
  · cases hidx : f.indexing_status <;> cases hsys : f.system_status <;>
      simp [hidx, hsys, init_global_state]
  · intro idx hidx
    cases hsys : f.system_status <;> simp [hidx, hsys]

/-- C7 (witness): a state file with `schema_version = 99` and
`running = true` loads successfully, `running` is forced to `false`, and
`documents_count` is recovered. -/
theorem load_state_best_effort_witness :
    (load_state init_global_state (some (some
      ⟨some 99, some ⟨some true, some "2024-01-01", some 5, some true, some "m"⟩,
       none, some [1, 2]⟩))).1 = true ∧
    (load_state init_global_state (some (some
      ⟨some 99, some ⟨some true, some "2024-01-01", some 5, some true, some "m"⟩,
       none, some [1, 2]⟩))).2.indexing_status.running = false ∧
    (load_state init_global_state (some (some
      ⟨some 99, some ⟨some true, some "2024-01-01", some 5, some true, some "m"⟩,
       none, some [1, 2]⟩))).2.indexing_status.documents_count = 5 :=
  ⟨(load_state_best_effort _).1, (load_state_best_effort _).2.1,
   (load_state_best_effort
      ⟨some 99, some ⟨some true, some "2024-01-01", some 5, some true, some "m"⟩,
       none, some [1, 2]⟩).2.2 _ rfl⟩

/-- C5 (counterexample): `_load_bm25` does **not** report failure on a
corpus/documents length mismatch.  With two documents and a persisted
corpus of one tokenized document (non-empty, BM25 object present), the
loader returns `True`; the mismatch is handled by the caller instead. -/
theorem load_bm25_mismatch_still_reports_success :
    (load_bm25 [⟨1, "a", "b", "c", "d"⟩, ⟨2, "e", "f", "g", "h"⟩]
        (.ok ⟨true, [["tok"]]⟩)).1 = true ∧
    ([["tok"]] : List (List String)).length ≠
      ([⟨1, "a", "b", "c", "d"⟩, ⟨2, "e", "f", "g", "h"⟩] : List Doc).length := by
  decide

/-- C5 (amended): on a corpus/documents length mismatch the loader
`_load_bm25` still reports success (it only logs a warning), but the
caller `SearchEngine.initialize` detects the mismatch itself, discards
the partial corpus and rebuilds the index from scratch — the loaded
partial corpus is never used. -/
theorem init_bm25_rebuilds_on_mismatch (tok : String → List String)
    (stop_words : List String) (documents : List Doc) (data : BM25FileData)
    (have_new_docs : Bool) (new_ids : List Nat)
    (hp : data.bm25_present = true) (hne : data.tokenized_corpus ≠ [])
    (hmm : data.tokenized_corpus.length ≠ documents.length) :
    (load_bm25 documents (.ok data)).1 = true ∧
    init_bm25_corpus tok stop_words documents true false (.ok data)
      have_new_docs new_ids = setup_bm25 tok stop_words documents := by
  constructor
  · simp [load_bm25, hp, hne]
  · simp [init_bm25_corpus, load_bm25, hp, hne, hmm]

/-- C5 (witness for the amended theorem): concrete mismatch — one stored
tokenized document against two documents; the loader reports success and
the initialisation path produces the freshly rebuilt corpus. -/
theorem init_bm25_rebuilds_on_mismatch_witness :
    (load_bm25 [⟨1, "a", "b", "c", "d"⟩, ⟨2, "e", "f", "g", "h"⟩]
        (.ok ⟨true, [["tok"]]⟩)).1 = true ∧
    init_bm25_corpus (fun s => [s]) [] [⟨1, "a", "b", "c", "d"⟩, ⟨2, "e", "f", "g", "h"⟩]
        true false (.ok ⟨true, [["tok"]]⟩) false [] =
      setup_bm25 (fun s => [s]) [] [⟨1, "a", "b", "c", "d"⟩, ⟨2, "e", "f", "g", "h"⟩] :=
  init_bm25_rebuilds_on_mismatch (fun s => [s]) []
    [⟨1, "a", "b", "c", "d"⟩, ⟨2, "e", "f", "g", "h"⟩] ⟨true, [["tok"]]⟩ false []
    rfl (by decide) (by decide)

/-! ### Association-list (Python dict) lemmas for the fusion step -/

lemma find?_map_key (m : List (Nat × SResult)) (k : Nat)
    (f : Option SResult → SResult) :
    (m.map (fun p => if p.1 = k then (p.1, f (some p.2)) else p)).find?
        (fun p => p.1 = k)
      = (m.find? (fun p => p.1 = k)).map (fun p => (p.1, f (some p.2))) := by
  induction m with
  | nil => rfl
  | cons q rest ih =>
    by_cases hq : q.1 = k
    · simp [List.find?_cons, hq]
    · simp only [List.map_cons, if_neg hq]
      rw [List.find?_cons_of_neg _ (by simpa using hq),
        List.find?_cons_of_neg _ (by simpa using hq), ih]

lemma find?_map_other (m : List (Nat × SResult)) (k k' : Nat)
    (f : Option SResult → SResult) (hkk : k' ≠ k) :
    (m.map (fun p => if p.1 = k then (p.1, f (some p.2)) else p)).find?
        (fun p => p.1 = k')
      = m.find? (fun p => p.1 = k') := by
  induction m with
  | nil => rfl
  | cons q rest ih =>
    by_cases hq : q.1 = k
    · simp only [List.map_cons, if_pos hq]
      rw [List.find?_cons_of_neg _ (by simpa using hq ▸ hkk.symm),
        List.find?_cons_of_neg _ (by simp [hq]; exact fun h => hkk (h ▸ hq ▸ rfl))]
      exact ih
    · simp only [List.map_cons, if_neg hq]
      by_cases hq' : q.1 = k'
      · rw [List.find?_cons_of_pos _ (by simpa using hq'),
          List.find?_cons_of_pos _ (by simpa using hq')]
      · rw [List.find?_cons_of_neg _ (by simpa using hq'),
          List.find?_cons_of_neg _ (by simpa using hq')]
        exact ih

lemma dictUpsert_find_key (m : List (Nat × SResult)) (k : Nat)
    (f : Option SResult → SResult) :
    (dictUpsert m k f).find? (fun p => p.1 = k)
      = some (k, f ((m.find? (fun p => p.1 = k)).map (fun p => p.2))) := by
  unfold dictUpsert
  by_cases hany : m.any (fun p => p.1 = k)
  · rw [if_pos hany, find?_map_key]
    have hsome : (m.find? (fun p => p.1 = k)).isSome := by
      rw [List.find?_isSome]
      simpa using List.any_eq_true.mp hany
    obtain ⟨q', hq'⟩ := Option.isSome_iff_exists.mp hsome
    have hq'k : q'.1 = k := by simpa using List.find?_some hq'
    simp [hq', hq'k]
  · rw [if_neg hany]
    have hnone : m.find? (fun p => p.1 = k) = none :=
      List.find?_eq_none.mpr (fun x hx => by
        intro hxk
        exact hany (List.any_eq_true.mpr ⟨x, hx, hxk⟩))
    rw [List.find?_append, hnone]
    simp

lemma dictUpsert_find_other (m : List (Nat × SResult)) (k k' : Nat)
    (f : Option SResult → SResult) (hkk : k' ≠ k) :
    (dictUpsert m k f).find? (fun p => p.1 = k')
      = m.find? (fun p => p.1 = k') := by
  unfold dictUpsert
  by_cases hany : m.any (fun p => p.1 = k)
  · rw [if_pos hany]
    exact find?_map_other m k k' f hkk
  · rw [if_neg hany, List.find?_append]
    have : ([(k, f none)].find? (fun p => p.1 = k')) = none := by
      simp [List.find?, hkk.symm]
    rw [this]
    simp

/-- Folding dict upserts whose keys all differ from `i` leaves the entry
at `i` unchanged. -/
lemma dict_fold_find_of_not_mem (upd : SResult → Option SResult → SResult)
    (l : List SResult) (m : List (Nat × SResult)) (i : Nat)
    (h : ∀ r ∈ l, r.id ≠ i) :
    (l.foldl (fun m r => dictUpsert m r.id (upd r)) m).find? (fun p => p.1 = i)
      = m.find? (fun p => p.1 = i) := by
  induction l generalizing m with
  | nil => rfl
  | cons x rest ih =>
    simp only [List.foldl_cons]
    rw [ih _ (fun r hr => h r (List.mem_cons_of_mem x hr)),
      dictUpsert_find_other _ _ _ _ (fun he => h x (List.mem_cons_self x rest) he.symm)]

/-- Folding dict upserts over a list with pairwise-distinct ids: the
entry of a member `r` is `upd r` applied to the previous value. -/
lemma dict_fold_find_of_mem (upd : SResult → Option SResult → SResult)
    (l : List SResult) (m : List (Nat × SResult)) (r : SResult)
    (hr : r ∈ l) (hnd : (l.map (fun x => x.id)).Nodup) :
    (l.foldl (fun m r => dictUpsert m r.id (upd r)) m).find? (fun p => p.1 = r.id)
      = some (r.id, upd r ((m.find? (fun p => p.1 = r.id)).map (fun p => p.2))) := by
  induction l generalizing m with
  | nil => exact absurd hr (List.not_mem_nil r)
  | cons x rest ih =>
    simp only [List.map_cons, List.nodup_cons] at hnd
    obtain ⟨hx, hrest⟩ := hnd
    simp only [List.foldl_cons]
    rcases List.mem_cons.mp hr with rfl | hmem
    · have hni : ∀ y ∈ rest, y.id ≠ r.id := by
        intro y hy he
        exact hx (he ▸ List.mem_map_of_mem (fun z => z.id) hy)
      rw [dict_fold_find_of_not_mem upd rest _ r.id hni, dictUpsert_find_key]
    · have hxr : x.id ≠ r.id := by
        intro he
        exact hx (he ▸ List.mem_map_of_mem (fun z => z.id) hmem)
      rw [ih _ hmem hrest, dictUpsert_find_other _ _ _ _ (fun he => hxr he.symm)]

/-- C2: the fusion law of `hybrid_search` (main.py 1148-1165) on the two
normalised candidate lists.  A document appearing only among the keyword
candidates with normalised score `s` is fused to `s * BM25_WEIGHT`
(`0.3`); one appearing only among the semantic candidates with similarity
`t` is fused to `t * SEMANTIC_WEIGHT` (`0.7`); one appearing in both is
fused to the sum of the two terms.  (Candidate ids are pairwise distinct
within each list, as produced by `keyword_search` and ChromaDB.) -/
theorem fusion_weight_law (kw sem : List SResult)
    (hkw : (kw.map (fun x => x.id)).Nodup)
    (hsem : (sem.map (fun x => x.id)).Nodup) :
    (∀ r ∈ kw, (∀ s ∈ sem, s.id ≠ r.id) →
        lookupScore (combine_results kw sem) r.id
          = some (r.score * BM25_WEIGHT)) ∧
    (∀ s ∈ sem, (∀ r ∈ kw, r.id ≠ s.id) →
        lookupScore (combine_results kw sem) s.id
          = some (s.score * SEMANTIC_WEIGHT)) ∧
    (∀ r ∈ kw, ∀ s ∈ sem, s.id = r.id →
        lookupScore (combine_results kw sem) r.id
          = some (r.score * BM25_WEIGHT + s.score * SEMANTIC_WEIGHT)) := by
  refine ⟨?_, ?_, ?_⟩
  · intro r hr hnot
    unfold lookupScore combine_results add_semantic_results add_keyword_results
    rw [dict_fold_find_of_not_mem _ sem _ r.id hnot,
      dict_fold_find_of_mem _ kw [] r hr hkw]
    simp
  · intro s hs hnot
    unfold lookupScore combine_results add_semantic_results add_keyword_results
    rw [dict_fold_find_of_mem _ sem _ s hs hsem,
      dict_fold_find_of_not_mem _ kw [] s.id hnot]
    simp
  · intro r hr s hs heq
    unfold lookupScore combine_results add_semantic_results add_keyword_results
    rw [← heq, dict_fold_find_of_mem _ sem _ s hs hsem, heq,
      dict_fold_find_of_mem _ kw [] r hr hkw]
    simp

/-- C2 (witness): concrete one-element candidate lists. -/
theorem fusion_weight_law_witness :
    lookupScore (combine_results
        [⟨1, "a", "ca", "2020", 1, "x", none⟩]
        [⟨2, "b", "cb", "2021", 1, "y", none⟩]) 1
      = some ((1 : ℚ) * BM25_WEIGHT) ∧
    lookupScore (combine_results
        [⟨1, "a", "ca", "2020", 1, "x", none⟩]
        [⟨2, "b", "cb", "2021", 1, "y", none⟩]) 2
      = some ((1 : ℚ) * SEMANTIC_WEIGHT) ∧
    lookupScore (combine_results
        [⟨1, "a", "ca", "2020", 1, "x", none⟩]
        [⟨1, "c", "cc", "2022", 1, "z", none⟩]) 1
      = some ((1 : ℚ) * BM25_WEIGHT + (1 : ℚ) * SEMANTIC_WEIGHT) :=
  ⟨(fusion_weight_law [⟨1, "a", "ca", "2020", 1, "x", none⟩]
      [⟨2, "b", "cb", "2021", 1, "y", none⟩] (by simp) (by simp)).1
      ⟨1, "a", "ca", "2020", 1, "x", none⟩ (by simp) (by simp),
   (fusion_weight_law [⟨1, "a", "ca", "2020", 1, "x", none⟩]
      [⟨2, "b", "cb", "2021", 1, "y", none⟩] (by simp) (by simp)).2.1
      ⟨2, "b", "cb", "2021", 1, "y", none⟩ (by simp) (by simp),
   (fusion_weight_law [⟨1, "a", "ca", "2020", 1, "x", none⟩]
      [⟨1, "c", "cc", "2022", 1, "z", none⟩] (by simp) (by simp)).2.2
      ⟨1, "a", "ca", "2020", 1, "x", none⟩ (by simp)
      ⟨1, "c", "cc", "2022", 1, "z", none⟩ (by simp) rfl⟩

/-- C1 (counterexample): both subsystems operational and answering, but
with zero matching candidates — a single document whose BM25 score is `0`
(the `score > 0` filter then leaves no keyword candidate) and a ChromaDB
query that succeeds with an empty id list — makes `hybrid_search` raise
"All search methods failed" instead of returning an empty success. -/
theorem hybrid_search_raises_on_zero_matches :
    hybrid_search [⟨1, "t", "c", "co", "2020"⟩] true true (.ok [0])
      (fun _ => .ok []) MAX_RESULTS = .error "All search methods failed" := by
  norm_num [hybrid_search, keyword_results_caught, keyword_search,
    semantic_search, List.mergeSort, MAX_RESULTS]

/-- C1 (amended): with both subsystems enabled, `hybrid_search` raises
exactly when both candidate lists come back empty — whether because a
subsystem failed (a raising keyword search is collapsed to `[]`, and
`semantic_search` converts its own failures to `[]` before `hybrid_search`
sees them) or because there were genuinely no matching candidates.  The
two causes are indistinguishable at main.py 1129-1131, so the error is
not restricted to the subsystem-failure case. -/
theorem hybrid_search_error_iff_both_empty (documents : List Doc)
    (bm25Scores : Except Unit (List ℚ))
    (chroma : Nat → Except Unit (List (Nat × ℚ))) (top_k : Nat) :
    (∃ e, hybrid_search documents true true bm25Scores chroma top_k
        = .error e) ↔
      (keyword_results_caught documents bm25Scores (top_k * 2) = [] ∧
       semantic_search documents chroma (top_k * 2) = []) := by
  unfold hybrid_search
  simp only [Bool.true_eq_false, if_false]
  by_cases h : (keyword_results_caught documents bm25Scores (top_k * 2)).isEmpty
      && (semantic_search documents chroma (top_k * 2)).isEmpty
  · rw [if_pos h]
    simp only [Bool.and_eq_true, List.isEmpty_iff] at h
    exact iff_of_true ⟨_, rfl⟩ h
  · rw [if_neg h]
    constructor
    · rintro ⟨e, he⟩
      exact absurd he (by simp)
    · rintro ⟨h1, h2⟩
      exact absurd (by simp [h1, h2]) h

/-! ### Sorting helpers for reranking and fused ordering -/

/-- `mergeSort` with the boolean "descending by key" comparator really
sorts descending by key. -/
lemma sorted_mergeSort_descending (key : SResult → ℚ) (l : List SResult) :
    (l.mergeSort (fun a b => decide (key b ≤ key a))).Sorted
      (fun a b => key b ≤ key a) := by
  have h := @List.sorted_mergeSort SResult (fun a b => decide (key b ≤ key a))
    (fun a b c hab hbc => by
      simp only [decide_eq_true_eq] at hab hbc ⊢
      exact le_trans hbc hab)
    (fun a b => by
      rcases le_total (key b) (key a) with h | h
      · simp [h]
      · simp [h]) l
  exact List.Pairwise.imp (fun hab => by simpa using hab) h

/-- C4: reranking error handling.  If the cross-encoder call raises, or
returns a score count different from the result count, every result gets
the neutral `cross_score = 0.5` and the fused order is preserved (the
whole, untruncated list when the result count is within `top_k`, as it
always is for the caller); the failure is absorbed, never propagated.
Otherwise each result's rerank score is `sig` (the logistic sigmoid) of
its raw model score and the returned list is exactly those scored results
sorted by rerank score descending. -/
theorem rerank_failure_neutral_and_success_sorted (sig : ℚ → ℚ)
    (results : List SResult) (predictOut : Except Unit (List ℚ)) (top_k : Nat)
    (hne : results ≠ []) (hlen : results.length ≤ top_k) :
    ((predictOut = .error () ∨
        ∃ cs, predictOut = .ok cs ∧ cs.length ≠ results.length) →
      rerank_results sig results predictOut top_k
        = results.map (fun r => { r with cross_score := some (1/2) })) ∧
    (∀ cs, predictOut = .ok cs → cs.length = results.length →
      (rerank_results sig results predictOut top_k).Perm
        (results.zipWith
          (fun r sc => { r with cross_score := some (sig sc) }) cs) ∧
      (rerank_results sig results predictOut top_k).Sorted
        (fun a b => b.cross_score.getD 0 ≤ a.cross_score.getD 0)) := by
  have hempty : results.isEmpty = false := by
    simp [List.isEmpty_iff, hne]
  constructor
  · rintro (rfl | ⟨cs, rfl, hcs⟩)
    · unfold rerank_results
      rw [if_neg (by simp [hempty])]
      dsimp only
      exact List.take_of_length_le (by simpa using hlen)
    · unfold rerank_results
      rw [if_neg (by simp [hempty])]
      dsimp only
      rw [if_pos hcs]
  · rintro cs rfl hcs
    unfold rerank_results
    rw [if_neg (by simp [hempty])]
    dsimp only
    rw [if_neg (by simp [hcs])]
    have hslen : ((results.zipWith
        (fun r sc => { r with cross_score := some (sig sc) }) cs).mergeSort
          (fun a b =>
            decide (b.cross_score.getD 0 ≤ a.cross_score.getD 0))).length
        ≤ top_k := by
      rw [List.length_mergeSort, List.length_zipWith, hcs, min_self]
      exact hlen
    rw [List.take_of_length_le hslen]
    exact ⟨List.mergeSort_perm _ _,
      sorted_mergeSort_descending (fun r => r.cross_score.getD 0) _⟩

/-- C4 (witness): one result; a mismatching score list (0 scores for 1
result) yields the neutral 0.5 with the order preserved, and a matching
score list yields a descending-sorted output. -/
theorem rerank_failure_neutral_witness :
    rerank_results (fun x => x) [⟨1, "a", "c", "2020", 1, "x", none⟩]
        (.ok []) 20
      = ([⟨1, "a", "c", "2020", 1, "x", none⟩] : List SResult).map
          (fun r => { r with cross_score := some (1/2) }) ∧
    (rerank_results (fun x => x) [⟨1, "a", "c", "2020", 1, "x", none⟩]
        (.ok [2]) 20).Sorted
      (fun a b => b.cross_score.getD 0 ≤ a.cross_score.getD 0) := by
  constructor
  · exact (rerank_failure_neutral_and_success_sorted (fun x => x)
      [⟨1, "a", "c", "2020", 1, "x", none⟩] (.ok []) 20
      (by simp) (by simp)).1 (Or.inr ⟨[], rfl, by simp⟩)
  · exact ((rerank_failure_neutral_and_success_sorted (fun x => x)
      [⟨1, "a", "c", "2020", 1, "x", none⟩] (.ok [2]) 20
      (by simp) (by simp)).2 [2] rfl (by simp)).2

/-- C8 (counterexample): a result whose `date` field is empty is exempt
from the date filter: with `from_date = "2020-01-01"` the code keeps it
(main.py 1302 tests `result["date"]` for truthiness before comparing),
although the claimed keep-condition `datePart(date) >= fromDate` is false
for it (`"" < "2020-01-01"`). -/
theorem filter_keeps_empty_date_despite_bound :
    applyFilters ⟨some "2020-01-01", none, none⟩
        [⟨5, "t", "ACME", "", 1, "c", none⟩]
      = [⟨5, "t", "ACME", "", 1, "c", none⟩] ∧
    specKeep ⟨some "2020-01-01", none, none⟩
      ⟨5, "t", "ACME", "", 1, "c", none⟩ = false := by
  constructor
  · rfl
  · rfl

/-- C8 (amended): post-fusion filtering is exactly `List.filter` with the
implemented per-result predicate — results are dropped, never re-scored,
and the kept ones form a subsequence of the input with all fields (in
particular the fused score) unchanged.  The predicate enforces the
inclusive date-portion bounds and the case-insensitive correspondent
substring only when both the bound and the corresponding result field are
non-empty; a result with an empty date or correspondent is exempt from
the respective check (rather than being dropped as the literal reading of
the claim would require). -/
theorem filter_drops_only_nonmatching (req : SearchRequestM)
    (rs : List SResult) (r : SResult) :
    applyFilters req rs = rs.filter (includeResult req) ∧
    (rs.filter (includeResult req)).Sublist rs ∧
    (r.date = "" → r.correspondent = "" → includeResult req r = true) ∧
    (∀ fd td c, r.date ≠ "" → r.correspondent ≠ "" →
      (includeResult ⟨some fd, some td, some c⟩ r = true ↔
        ((fd ≠ "" → strLt (datePart r.date) fd = false) ∧
         (td ≠ "" → strLt td (datePart r.date) = false) ∧
         (c ≠ "" → strContainsCI r.correspondent c = true)))) := by
  refine ⟨?_, List.filter_sublist rs, ?_, ?_⟩
  · unfold applyFilters
    split_ifs with h
    · rfl
    · have h1 : truthy req.from_date = false :=
        Bool.eq_false_iff.mpr (fun ht => h (by simp [ht]))
      have h2 : truthy req.to_date = false :=
        Bool.eq_false_iff.mpr (fun ht => h (by simp [ht]))
      have h3 : truthy req.correspondent = false :=
        Bool.eq_false_iff.mpr (fun ht => h (by simp [ht]))
      exact (List.filter_eq_self.mpr (fun a _ => by
        simp [includeResult, h1, h2, h3])).symm
  · intro hd hc
    simp [includeResult, hd, hc, String.isEmpty_iff]
  · intro fd td c hd hc
    have hdf : r.date.isEmpty = false :=
      Bool.eq_false_iff.mpr (fun ht => hd ((String.isEmpty_iff r.date).mp ht))
    have hcf : r.correspondent.isEmpty = false :=
      Bool.eq_false_iff.mpr
        (fun ht => hc ((String.isEmpty_iff r.correspondent).mp ht))
    by_cases hfd : fd = "" <;> by_cases htd : td = "" <;> by_cases hc' : c = "" <;>
      simp [includeResult, truthy, hfd, htd, hc', hdf, hcf,
        Bool.not_eq_true', and_assoc, String.isEmpty_iff]

/-- C8 (witness for the amended theorem): a concrete request with all
three filters and a result with non-empty fields. -/
theorem filter_drops_only_nonmatching_witness :
    applyFilters ⟨some "2020-01-01", some "2020-12-31", some "acme"⟩
        [⟨6, "t", "ACME Corp", "2020-05-05T10", 1, "c", none⟩]
      = ([⟨6, "t", "ACME Corp", "2020-05-05T10", 1, "c", none⟩] :
          List SResult).filter
          (includeResult ⟨some "2020-01-01", some "2020-12-31", some "acme"⟩) ∧
    (includeResult ⟨some "2020-01-01", some "2020-12-31", some "acme"⟩
        ⟨6, "t", "ACME Corp", "2020-05-05T10", 1, "c", none⟩ = true ↔
      (("2020-01-01" ≠ "" →
          strLt (datePart "2020-05-05T10") "2020-01-01" = false) ∧
       ("2020-12-31" ≠ "" →
          strLt "2020-12-31" (datePart "2020-05-05T10") = false) ∧
       ("acme" ≠ "" → strContainsCI "ACME Corp" "acme" = true))) := by
  constructor
  · exact (filter_drops_only_nonmatching
      ⟨some "2020-01-01", some "2020-12-31", some "acme"⟩
      [⟨6, "t", "ACME Corp", "2020-05-05T10", 1, "c", none⟩]
      ⟨6, "t", "ACME Corp", "2020-05-05T10", 1, "c", none⟩).1
  · exact (filter_drops_only_nonmatching
      ⟨some "2020-01-01", some "2020-12-31", some "acme"⟩ []
      ⟨6, "t", "ACME Corp", "2020-05-05T10", 1, "c", none⟩).2.2.2
      "2020-01-01" "2020-12-31" "acme" (by decide) (by decide)

/-! ### SHA-256 digest shape lemmas -/

lemma wordBytes_lt (x : Nat) : ∀ b ∈ wordBytes x, b < 256 := by
  intro b hb
  simp only [wordBytes, List.mem_cons, List.not_mem_nil, or_false] at hb
  rcases hb with rfl | rfl | rfl | rfl <;> exact Nat.mod_lt _ (by norm_num)

lemma digestBytes_length (H : SHAState) : (digestBytes H).length = 32 := by
  simp [digestBytes, wordBytes]

lemma digestBytes_lt (H : SHAState) : ∀ b ∈ digestBytes H, b < 256 := by
  intro b hb
  simp only [digestBytes, List.mem_append] at hb
  rcases hb with ((((((h | h) | h) | h) | h) | h) | h) | h <;>
    exact wordBytes_lt _ b h

lemma sha256_length (msg : List Nat) : (sha256 msg).length = 32 := by
  unfold sha256
  exact digestBytes_length _

lemma sha256_lt (msg : List Nat) : ∀ b ∈ sha256 msg, b < 256 := by
  unfold sha256
  exact digestBytes_lt _

/-- C9 (counterexample): the claim "changing any single one of the three
fields (the other two held fixed) changes the hash" is false as a
universal statement: the digest lives in a finite set (32 bytes) while
titles range over an infinite set, so by the pigeonhole principle two
distinct titles (content and correspondent held fixed) share the same
`compute_document_hash`.  (No concrete SHA-256 collision is known, but
the universal claim admits no proof; what does hold is that the hash
*input* changes — see the amended theorem.) -/
theorem content_hash_collision_exists :
    ∃ t1 t2 : String, t1 ≠ t2 ∧
      compute_document_hash ⟨1, t1, "x", "y", "2020"⟩
        = compute_document_hash ⟨1, t2, "x", "y", "2020"⟩ := by
  obtain ⟨m, n, hmn, hf⟩ := Finite.exists_ne_map_eq_of_infinite
    (fun k : ℕ => (fun i : Fin 32 =>
      (⟨(sha256 (strEncode (hash_input
          ⟨1, String.mk (List.replicate k 'a'), "x", "y", "2020"⟩))).getD i.1 0
          % 256,
        Nat.mod_lt _ (by norm_num)⟩ : Fin 256)))
  refine ⟨String.mk (List.replicate m 'a'), String.mk (List.replicate n 'a'),
    ?_, ?_⟩
  · intro h
    apply hmn
    have hlen := congrArg (fun s : String => s.data.length) h
    simpa using hlen
  · have hbytes :
        sha256 (strEncode (hash_input
            ⟨1, String.mk (List.replicate m 'a'), "x", "y", "2020"⟩))
          = sha256 (strEncode (hash_input
            ⟨1, String.mk (List.replicate n 'a'), "x", "y", "2020"⟩)) := by
      apply List.ext_getElem (by rw [sha256_length, sha256_length])
      intro i h1 h2
      have hi : i < 32 := by rw [sha256_length] at h1; exact h1
      have hv :
          (sha256 (strEncode (hash_input
              ⟨1, String.mk (List.replicate m 'a'), "x", "y", "2020"⟩))).getD i 0
            % 256
            = (sha256 (strEncode (hash_input
              ⟨1, String.mk (List.replicate n 'a'), "x", "y", "2020"⟩))).getD i 0
            % 256 :=
        congrArg Fin.val (congrFun hf ⟨i, hi⟩)
      rw [List.getD_eq_getElem _ _ h1, List.getD_eq_getElem _ _ h2,
        Nat.mod_eq_of_lt (sha256_lt _ _ (List.getElem_mem h1)),
        Nat.mod_eq_of_lt (sha256_lt _ _ (List.getElem_mem h2))] at hv
      exact hv
    simpa [compute_document_hash] using congrArg hexDigest hbytes

/-- C9 (amended): the document hash is the SHA-256 hex digest of the
concatenation `title ++ content ++ correspondent`, hence deterministic —
equal field triples give equal hashes — and changing any single one of
the three fields (the other two held fixed) changes the hash *input*
(concatenation is injective in each field separately); the digest itself
then differs unless the two distinct inputs form a SHA-256 collision,
which exists in principle (see the counterexample) but is unobtainable in
practice. -/
theorem content_hash_deterministic_and_input_sensitive :
    (∀ d1 d2 : Doc, d1.title = d2.title → d1.content = d2.content →
      d1.correspondent = d2.correspondent →
      compute_document_hash d1 = compute_document_hash d2) ∧
    (∀ d1 d2 : Doc, d1.content = d2.content →
      d1.correspondent = d2.correspondent → d1.title ≠ d2.title →
      hash_input d1 ≠ hash_input d2) ∧
    (∀ d1 d2 : Doc, d1.title = d2.title →
      d1.correspondent = d2.correspondent → d1.content ≠ d2.content →
      hash_input d1 ≠ hash_input d2) ∧
    (∀ d1 d2 : Doc, d1.title = d2.title → d1.content = d2.content →
      d1.correspondent ≠ d2.correspondent →
      hash_input d1 ≠ hash_input d2) := by
  refine ⟨?_, ?_, ?_, ?_⟩
  · intro d1 d2 h1 h2 h3
    simp [compute_document_hash, hash_input, h1, h2, h3]
  · intro d1 d2 hc hr hne h
    apply hne
    have hd := congrArg String.data h
    simp only [hash_input, String.data_append, hc, hr] at hd
    exact String.ext (List.append_cancel_right (List.append_cancel_right hd))
  · intro d1 d2 ht hr hne h
    apply hne
    have hd := congrArg String.data h
    simp only [hash_input, String.data_append, ht, hr] at hd
    exact String.ext (List.append_cancel_left (List.append_cancel_right hd))
  · intro d1 d2 ht hc hne h
    apply hne
    have hd := congrArg String.data h
    simp only [hash_input, String.data_append, ht, hc] at hd
    exact String.ext (List.append_cancel_left hd)

/-- C9 (witness for the amended theorem): concrete documents — equal
triples (different ids) hash equal; changing exactly one field changes
the hash input. -/
theorem content_hash_deterministic_witness :
    compute_document_hash ⟨1, "a", "b", "c", "2020"⟩
      = compute_document_hash ⟨2, "a", "b", "c", "2021"⟩ ∧
    hash_input ⟨1, "a", "b", "c", "2020"⟩ ≠ hash_input ⟨1, "z", "b", "c", "2020"⟩ ∧
    hash_input ⟨1, "a", "b", "c", "2020"⟩ ≠ hash_input ⟨1, "a", "z", "c", "2020"⟩ ∧
    hash_input ⟨1, "a", "b", "c", "2020"⟩ ≠ hash_input ⟨1, "a", "b", "z", "2020"⟩ := by
  refine ⟨?_, ?_, ?_, ?_⟩
  · exact content_hash_deterministic_and_input_sensitive.1
      ⟨1, "a", "b", "c", "2020"⟩ ⟨2, "a", "b", "c", "2021"⟩ rfl rfl rfl
  · exact content_hash_deterministic_and_input_sensitive.2.1
      ⟨1, "a", "b", "c", "2020"⟩ ⟨1, "z", "b", "c", "2020"⟩ rfl rfl (by decide)
  · exact content_hash_deterministic_and_input_sensitive.2.2.1
      ⟨1, "a", "b", "c", "2020"⟩ ⟨1, "a", "z", "c", "2020"⟩ rfl rfl (by decide)
  · exact content_hash_deterministic_and_input_sensitive.2.2.2
      ⟨1, "a", "b", "c", "2020"⟩ ⟨1, "a", "b", "z", "2020"⟩ rfl rfl (by decide)

/-! ### Result-count bound lemmas -/

lemma semantic_search_length_le (documents : List Doc)
    (chroma : Nat → Except Unit (List (Nat × ℚ))) (top_k : Nat)
    (hch : ∀ k l, chroma k = .ok l → l.length ≤ k) :
    (semantic_search documents chroma top_k).length ≤ top_k := by
  unfold semantic_search
  cases hc : chroma (min top_k 100) with
  | error e => simp
  | ok l =>
    calc (l.filterMap _).length ≤ l.length := List.length_filterMap_le _ _
      _ ≤ min top_k 100 := hch _ _ hc
      _ ≤ top_k := min_le_left _ _

lemma keyword_search_length_le (documents : List Doc)
    (bm25Scores : Except Unit (List ℚ)) (top_k : Nat) (rs : List SResult)
    (h : keyword_search documents bm25Scores top_k = .ok rs) :
    rs.length ≤ top_k := by
  unfold keyword_search at h
  cases bm25Scores with
  | error e => exact absurd h (by simp)
  | ok scores =>
    dsimp only at h
    by_cases hl : scores.length ≠ documents.length
    · rw [if_pos hl] at h
      exact absurd h (by simp)
    · rw [if_neg hl] at h
      injection h with h
      rw [← h]
      calc _ ≤ ((scores.enum.mergeSort
            (fun a b => decide (b.2 ≤ a.2))).take top_k).length :=
          List.length_filterMap_le _ _
        _ ≤ top_k := by rw [List.length_take]; exact min_le_left _ _

lemma hybrid_search_length_le (documents : List Doc)
    (bm25Ok collectionOk : Bool) (bm25Scores : Except Unit (List ℚ))
    (chroma : Nat → Except Unit (List (Nat × ℚ))) (top_k : Nat)
    (hch : ∀ k l, chroma k = .ok l → l.length ≤ k) (rs : List SResult)
    (h : hybrid_search documents bm25Ok collectionOk bm25Scores chroma top_k
      = .ok rs) : rs.length ≤ top_k := by
  unfold hybrid_search at h
  by_cases hb : bm25Ok = false
  · rw [if_pos hb] at h
    injection h with h
    rw [← h]
    exact semantic_search_length_le documents chroma top_k hch
  · rw [if_neg hb] at h
    by_cases hcoll : collectionOk = false
    · rw [if_pos hcoll] at h
      exact keyword_search_length_le documents bm25Scores top_k rs h
    · rw [if_neg hcoll] at h
      by_cases hemp : (keyword_results_caught documents bm25Scores
            (top_k * 2)).isEmpty
          && (semantic_search documents chroma (top_k * 2)).isEmpty
      · rw [if_pos hemp] at h
        exact absurd h (by simp)
      · rw [if_neg hemp] at h
        injection h with h
        rw [← h, List.length_take]
        exact min_le_left _ _

lemma rerank_results_length_le (sig : ℚ → ℚ) (results : List SResult)
    (predictOut : Except Unit (List ℚ)) (top_k : Nat)
    (h : results.length ≤ top_k) :
    (rerank_results sig results predictOut top_k).length ≤ top_k := by
  unfold rerank_results
  by_cases hemp : results.isEmpty
  · rw [if_pos hemp]
    simp
  · rw [if_neg hemp]
    cases predictOut with
    | error e =>
      dsimp only
      rw [List.length_take]
      exact min_le_left _ _
    | ok cs =>
      dsimp only
      by_cases hcs : cs.length ≠ results.length
      · rw [if_pos hcs, List.length_map]
        exact h
      · rw [if_neg hcs, List.length_take]
        exact min_le_left _ _

lemma applyFilters_length_le (req : SearchRequestM) (rs : List SResult) :
    (applyFilters req rs).length ≤ rs.length := by
  unfold applyFilters
  split_ifs
  · exact List.length_filter_le _ _
  · exact le_refl _

/-- C10: for every input configuration (any documents, subsystem
availability, BM25 scores, ChromaDB responses — which return at most the
requested number of neighbours — filters and rerank outcome) a successful
`search` returns at most `MAX_RESULTS = 20` results, and already the
`hybrid_search` stage truncates its fused candidate list to at most
`MAX_RESULTS` entries; filtering, reranking and the single-method
fallback paths never enlarge the list beyond that bound. -/
theorem search_result_count_bound (documents : List Doc)
    (bm25Ok collectionOk : Bool) (bm25Scores : Except Unit (List ℚ))
    (chroma : Nat → Except Unit (List (Nat × ℚ))) (req : SearchRequestM)
    (sig : ℚ → ℚ) (predictOut : Except Unit (List ℚ))
    (hch : ∀ k l, chroma k = .ok l → l.length ≤ k) :
    (∀ rs, search documents bm25Ok collectionOk bm25Scores chroma req sig
        predictOut = .ok rs → rs.length ≤ MAX_RESULTS) ∧
    (∀ rs, hybrid_search documents bm25Ok collectionOk bm25Scores chroma
        MAX_RESULTS = .ok rs → rs.length ≤ MAX_RESULTS) := by
  constructor
  · intro rs h
    unfold search at h
    cases hh : hybrid_search documents bm25Ok collectionOk bm25Scores chroma
        MAX_RESULTS with
    | error e =>
      rw [hh] at h
      exact absurd h (by simp)
    | ok hres =>
      rw [hh] at h
      dsimp only at h
      have hb : hres.length ≤ MAX_RESULTS :=
        hybrid_search_length_le documents bm25Ok collectionOk bm25Scores
          chroma MAX_RESULTS hch hres hh
      by_cases hemp : hres.isEmpty
      · rw [if_pos hemp] at h
        injection h with h
        simp [← h]
      · rw [if_neg hemp] at h
        by_cases hf : (applyFilters req hres).isEmpty
        · rw [if_pos hf] at h
          injection h with h
          simp [← h]
        · rw [if_neg hf] at h
          injection h with h
          rw [← h]
          exact rerank_results_length_le sig _ predictOut MAX_RESULTS
            (le_trans (applyFilters_length_le req hres) hb)
  · intro rs h
    exact hybrid_search_length_le documents bm25Ok collectionOk bm25Scores
      chroma MAX_RESULTS hch rs h

/-- C10 (witness): with the BM25 subsystem down and an operational but
empty vector collection, `search` succeeds with an empty result list,
within the bound. -/
theorem search_result_count_bound_witness :
    ∃ rs, search [] false false (.ok []) (fun _ => .ok [])
        ⟨none, none, none⟩ (fun x => x) (.ok []) = .ok rs ∧
      rs.length ≤ MAX_RESULTS := by
  refine ⟨[], rfl, ?_⟩
  exact (search_result_count_bound [] false false (.ok []) (fun _ => .ok [])
    ⟨none, none, none⟩ (fun x => x) (.ok [])
    (fun k l hl => by injection hl with h; simp [← h])).1 [] rfl

end Ragz
